import Mathlib

/-!
# Verification of the rustdi binary node codec, handshake and state sync

Shallow embedding of the rustdi repository (a Rust client for a binary
instant-messaging protocol).  Rust byte slices become `List Nat` (entries are
byte values), Rust `String` becomes its UTF-8 byte list, `HashMap` becomes an
insertion-ordered association list, and fallible code returns an explicit
result type.  A Rust `panic` (out-of-bounds slice indexing) is modelled as a
distinguished `crash` outcome, separate from a recoverable `Err`.

The embedded modules: `src/node_protocol.rs` (encoder and decoder),
`src/node_protocol_new.rs` (decoder), `src/appstate.rs`, `src/appstate_sync.rs`,
`src/handshake_new.rs`, `src/crypto.rs` and `src/session.rs`.

Note on the constant `SINGLE_BYTE_MAX`: the Rust source declares
`pub const SINGLE_BYTE_MAX: u8 = 256;`, a literal that overflows `u8` and does
not even compile; every use site compares against it after an integer cast.
The embedding uses the written numeric value 256, which matches the evident
reading of each comparison (`token_index < SINGLE_BYTE_MAX as usize`, etc.).
-/

namespace Rustdi

/-- Result of running a piece of Rust code: normal return, a recoverable
`Err` (the repository's `Result<T>` with a string error), or a `crash`
modelling a Rust panic such as an out-of-bounds slice index. -/
inductive RRes (α : Type) where
  | ok : α → RRes α
  | err : String → RRes α
  | crash : String → RRes α
deriving Repr

/-- Decoder state from `node_protocol.rs`: the input buffer and a cursor. -/
structure Dec where
  data : List Nat
  index : Nat
deriving Repr, DecidableEq

/-- State-passing decoder computations over `Dec`. -/
def DecM (α : Type) : Type := Dec → RRes (α × Dec)

def DecM.pure {α : Type} (a : α) : DecM α := fun st => .ok (a, st)

def DecM.bind {α β : Type} (m : DecM α) (f : α → DecM β) : DecM β := fun st =>
  match m st with
  | .ok (a, st') => f a st'
  | .err e => .err e
  | .crash e => .crash e

instance : Monad DecM where
  pure := DecM.pure
  bind := DecM.bind

/-- The monad structure on `DecM` is definitionally `DecM.bind`. -/
theorem DecM.bind_def {α β : Type} (m : DecM α) (f : α → DecM β) :
    m >>= f = DecM.bind m f := rfl

theorem DecM.pure_def {α : Type} (a : α) :
    (Pure.pure a : DecM α) = DecM.pure a := rfl

/-- Inversion for a successful bind. -/
theorem DecM.bind_ok {α β : Type} {m : DecM α} {f : α → DecM β} {st : Dec}
    {r : β × Dec} (h : DecM.bind m f st = .ok r) :
    ∃ a st', m st = .ok (a, st') ∧ f a st' = .ok r := by
  unfold DecM.bind at h
  cases hm : m st with
  | ok p =>
    obtain ⟨a, st'⟩ := p
    rw [hm] at h
    exact ⟨a, st', rfl, h⟩
  | err e => rw [hm] at h; cases h
  | crash e => rw [hm] at h; cases h

def DecM.fail {α : Type} (e : String) : DecM α := fun _ => .err e

def DecM.die {α : Type} (e : String) : DecM α := fun _ => .crash e

/-! ## Wire constants (`node_protocol.rs` lines 4-20) -/

def LIST_EMPTY : Nat := 0
def STREAM_END : Nat := 2
def DICTIONARY_0 : Nat := 236
def DICTIONARY_1 : Nat := 237
def DICTIONARY_2 : Nat := 238
def DICTIONARY_3 : Nat := 239
def LIST_8 : Nat := 248
def LIST_16 : Nat := 249
def JID_PAIR : Nat := 250
def HEX_8 : Nat := 251
def BINARY_8 : Nat := 252
def BINARY_20 : Nat := 253
def BINARY_32 : Nat := 254
def NIBBLE_8 : Nat := 255

/-- See the header note: the source writes `pub const SINGLE_BYTE_MAX: u8 = 256`. -/
def SINGLE_BYTE_MAX : Nat := 256

def PACKED_MAX : Nat := 254

/-- UTF-8 bytes of an ASCII string (all token-table entries are ASCII). -/
def asciiBytes (s : String) : List Nat := s.data.map Char.toNat

/-- The token table `SINGLE_BYTE_TOKENS` of `node_protocol.rs` (identical in
`node_protocol_new.rs`), as the list of its entries' byte representations. -/
def tokenStrings : List String :=
  ["", "", "", "200", "400", "404", "500", "501", "502", "action", "add",
   "after", "archive", "author", "available", "battery", "before", "body",
   "broadcast", "chat", "clear", "code", "composing", "contacts", "count",
   "create", "debug", "delete", "demote", "duplicate", "encoding", "error",
   "false", "filehash", "from", "g.us", "group", "groups_v2", "height", "id",
   "image", "in", "index", "invis", "item", "jid", "kind", "last", "leave",
   "live", "log", "media", "message", "mimetype", "missing", "modify", "name",
   "notification", "notify", "out", "owner", "participant", "paused",
   "picture", "played", "presence", "preview", "promote", "query", "raw",
   "read", "receipt", "received", "recipient", "recording", "relay",
   "remove", "response", "resume", "retry", "s.whatsapp.net", "seconds",
   "set", "size", "status", "subject", "subscribe", "t", "text", "to", "true",
   "type", "unarchive", "unavailable", "url", "user", "value", "web", "width",
   "mute", "read_only", "admin", "creator", "short", "update", "powersave",
   "checksum", "epoch", "block", "previous", "409", "replaced", "reason",
   "spam", "modify_tag", "message_info", "delivery", "emoji", "title",
   "description", "canonical-url", "matched-text", "star", "unstar",
   "media_key", "filename", "identity", "unread", "page", "page_count",
   "search", "media_message", "security", "call_log", "profile", "ciphertext",
   "invite", "gif", "vcard", "frequent", "privacy", "blacklist", "whitelist",
   "verify", "location", "document", "elapsed", "revoke_invite", "expiration",
   "unsubscribe", "disable", "vname", "old_jid", "new_jid", "announcement",
   "locked", "prop", "label", "color", "call", "offer", "call-id",
   "quick_reply", "sticker", "pay_t", "accept", "reject", "sticker_pack",
   "invalid", "canceled", "missed", "connected", "result", "audio",
   "video", "recent"]

def SINGLE_BYTE_TOKENS : List (List Nat) := tokenStrings.map asciiBytes

/-- `"s.whatsapp.net"` as bytes. -/
def swnBytes : List Nat := asciiBytes "s.whatsapp.net"

/-- `"c.us"` as bytes. -/
def cusBytes : List Nat := asciiBytes "c.us"

/-- `SINGLE_BYTE_TOKENS.iter().position(|&t| t == s)`. -/
def tokenPosition (s : List Nat) : Option Nat :=
  SINGLE_BYTE_TOKENS.findIdx? (fun t => t == s)

/-- `s.find('@')` followed by `split_at` and dropping the `'@'` (byte 64):
returns the part before the first `'@'` and the part after it. -/
def jidSplit : List Nat → Option (List Nat × List Nat)
  | [] => none
  | b :: rest =>
    if b = 64 then some ([], rest)
    else
      match jidSplit rest with
      | some (l, r) => some (b :: l, r)
      | none => none

theorem jidSplit_length : ∀ {s l r : List Nat}, jidSplit s = some (l, r) →
    l.length < s.length ∧ r.length < s.length := by
  intro s
  induction s with
  | nil => intro l r h; simp [jidSplit] at h
  | cons b rest ih =>
    intro l r h
    by_cases hb : b = 64
    · simp [jidSplit, hb] at h
      obtain ⟨hl, hr⟩ := h
      subst hl; subst hr
      constructor <;> simp
    · simp [jidSplit, hb] at h
      cases hrec : jidSplit rest with
      | none => rw [hrec] at h; cases h
      | some p =>
        rw [hrec] at h
        obtain ⟨l', r'⟩ := p
        simp at h
        obtain ⟨hl, hr⟩ := h
        have := ih (l := l') (r := r') hrec
        subst hl; subst hr
        constructor
        · simpa using Nat.succ_lt_succ this.1
        · exact Nat.lt_succ_of_lt this.2

/-- UTF-8 continuation byte. -/
def utf8Cont (c : Nat) : Bool := 128 ≤ c && c ≤ 191

/-- Validity check performed by Rust's `String::from_utf8`. -/
def validUtf8 : List Nat → Bool
  | [] => true
  | b :: rest =>
    if b < 128 then validUtf8 rest
    else if 194 ≤ b && b ≤ 223 then
      match rest with
      | c1 :: rest2 => utf8Cont c1 && validUtf8 rest2
      | [] => false
    else if b = 224 then
      match rest with
      | c1 :: c2 :: rest2 => (160 ≤ c1 && c1 ≤ 191) && utf8Cont c2 && validUtf8 rest2
      | _ => false
    else if (225 ≤ b && b ≤ 236) || b = 238 || b = 239 then
      match rest with
      | c1 :: c2 :: rest2 => utf8Cont c1 && utf8Cont c2 && validUtf8 rest2
      | _ => false
    else if b = 237 then
      match rest with
      | c1 :: c2 :: rest2 => (128 ≤ c1 && c1 ≤ 159) && utf8Cont c2 && validUtf8 rest2
      | _ => false
    else if b = 240 then
      match rest with
      | c1 :: c2 :: c3 :: rest2 =>
        (144 ≤ c1 && c1 ≤ 191) && utf8Cont c2 && utf8Cont c3 && validUtf8 rest2
      | _ => false
    else if 241 ≤ b && b ≤ 243 then
      match rest with
      | c1 :: c2 :: c3 :: rest2 =>
        utf8Cont c1 && utf8Cont c2 && utf8Cont c3 && validUtf8 rest2
      | _ => false
    else if b = 244 then
      match rest with
      | c1 :: c2 :: c3 :: rest2 =>
        (128 ≤ c1 && c1 ≤ 143) && utf8Cont c2 && utf8Cont c3 && validUtf8 rest2
      | _ => false
    else false
termination_by l => l.length
decreasing_by all_goals simp_arith [List.length]

/-! ## The `Node` data model (`node_protocol.rs` lines 51-63)

`tag` and strings are UTF-8 byte lists; `attrs` is the insertion-ordered
association list standing for the Rust `HashMap<String, String>`. -/

mutual
inductive Node : Type where
  | mk : List Nat → List (List Nat × List Nat) → Option NodeContent → Node
deriving Repr
inductive NodeContent : Type where
  | text : List Nat → NodeContent
  | binary : List Nat → NodeContent
  | list : List Node → NodeContent
deriving Repr
end

def Node.tag : Node → List Nat
  | .mk t _ _ => t

def Node.attrs : Node → List (List Nat × List Nat)
  | .mk _ a _ => a

def Node.content : Node → Option NodeContent
  | .mk _ _ c => c

/-! ## `NodeEncoder` (`node_protocol.rs` lines 74-219)

Each `write_*` method pushes bytes onto `self.data`; the embedding returns
the list of bytes appended (whole-output = concatenation, in program order). -/

/-- `write_token` (lines 150-157): `if token < SINGLE_BYTE_MAX as u8 { push }`. -/
def writeToken (token : Nat) : Except String (List Nat) :=
  if token < SINGLE_BYTE_MAX then .ok [token] else .error "Invalid token"

/-- `(size as u16).to_be_bytes()` — big-endian bytes of the value mod 2^16. -/
def u16BeBytes (size : Nat) : List Nat :=
  [size % 65536 / 256, size % 256]

/-- `(length as u32).to_be_bytes()` — big-endian bytes of the value mod 2^32. -/
def u32BeBytes (length : Nat) : List Nat :=
  [length % 4294967296 / 16777216, length % 16777216 / 65536,
   length % 65536 / 256, length % 256]

/-- `write_int20` (lines 195-200). -/
def writeInt20 (value : Nat) : List Nat :=
  [(value >>> 16) &&& 15, (value >>> 8) &&& 255, value &&& 255]

/-- `write_byte_length` (lines 177-193). -/
def writeByteLength (length : Nat) : Except String (List Nat) :=
  if length ≥ 4294967296 then .error "String too large to encode"
  else if length ≥ 2 ^ 20 then .ok (BINARY_32 :: u32BeBytes length)
  else if length ≥ 256 then .ok (BINARY_20 :: writeInt20 length)
  else .ok [BINARY_8, length % 256]

/-- `write_string_raw` (lines 170-175). -/
def writeStringRaw (s : List Nat) : Except String (List Nat) := do
  let lb ← writeByteLength s.length
  pure (lb ++ s)

/-- `write_list_start` (lines 106-117). -/
def writeListStart (size : Nat) : Except String (List Nat) :=
  if size = 0 then .ok [LIST_EMPTY]
  else if size < 256 then .ok [LIST_8, size % 256]
  else .ok (LIST_16 :: u16BeBytes size)

/-- `write_string` (lines 119-148) with `write_jid` (lines 159-168) inlined at
its single call site.  The source recurses on the two halves of a JID, which
are strictly shorter than the whole string; the embedding makes that measure
a structural fuel argument (one unit per nested call) so that the function
reduces definitionally.  `writeString` supplies fuel that never runs out. -/
def writeStringF : Nat → List Nat → Bool → Except String (List Nat)
  | 0, _, _ => .error "recursion fuel exhausted"
  | Nat.succ fuel, s, i =>
    if i = false ∧ s = swnBytes then
      -- `write_token(position("s.whatsapp.net").unwrap() as u8)`
      match tokenPosition swnBytes with
      | some idx => writeToken idx
      | none => .error "unwrap on None"
    else
      match tokenPosition s with
      | some tokenIndex =>
        if tokenIndex < SINGLE_BYTE_MAX then writeToken tokenIndex
        else
          let overflow := tokenIndex - SINGLE_BYTE_MAX
          let dictionaryIndex := overflow >>> 8
          if dictionaryIndex < 4 then do
            let t1 ← writeToken (DICTIONARY_0 + dictionaryIndex)
            let t2 ← writeToken (overflow % 256)
            pure (t1 ++ t2)
          else .error "Dictionary token out of range"
      | none =>
        match jidSplit s with
        | some (left, right) => do
          -- body of `write_jid(left, right)`
          let lb ← if left.isEmpty then writeToken LIST_EMPTY
                   else writeStringF fuel left false
          let rb ← writeStringF fuel right false
          pure (JID_PAIR :: (lb ++ rb))
        | none => writeStringRaw s

/-- `write_string`: each JID half is shorter than the whole, so `s.length + 1`
units of fuel can never be exhausted. -/
def writeString (s : List Nat) (i : Bool) : Except String (List Nat) :=
  writeStringF (s.length + 1) s i

/-- The attribute-pair loop of `write_node` (lines 93-96). -/
def writeAttrs : List (List Nat × List Nat) → Except String (List Nat)
  | [] => pure []
  | (key, value) :: rest => do
    let kb ← writeString key false
    let vb ← writeString value false
    let restB ← writeAttrs rest
    pure (kb ++ vb ++ restB)

/-! `write_content` (lines 202-218) and `write_node` (lines 79-104), with the
nested recursion through content lists again made structural on a fuel
argument (one unit per nested call). -/
mutual
def writeNodeF : Nat → Node → Except String (List Nat)
  | 0, _ => .error "recursion fuel exhausted"
  | Nat.succ fuel, .mk tag attrs content => do
    let totalChildren := 1 + 2 * attrs.length +
      (if content.isSome then 1 else 0)
    let header ← writeListStart totalChildren
    let tagB ← writeString tag false
    let attrB ← writeAttrs attrs
    let contentB ← writeOptContentF fuel content
    pure (header ++ tagB ++ attrB ++ contentB)
def writeOptContentF : Nat → Option NodeContent → Except String (List Nat)
  | fuel, some c => writeContentF fuel c
  | _, none => pure []
def writeContentF : Nat → NodeContent → Except String (List Nat)
  | 0, _ => .error "recursion fuel exhausted"
  | Nat.succ fuel, c =>
    match c with
    | .text s => writeString s true
    | .binary bytes => do
      let lb ← writeByteLength bytes.length
      pure (lb ++ bytes)
    | .list nodes => do
      let header ← writeListStart nodes.length
      let body ← writeNodeListF fuel nodes
      pure (header ++ body)
def writeNodeListF : Nat → List Node → Except String (List Nat)
  | 0, _ => .error "recursion fuel exhausted"
  | Nat.succ _, [] => pure []
  | Nat.succ fuel, n :: rest => do
    let nb ← writeNodeF fuel n
    let restB ← writeNodeListF fuel rest
    pure (nb ++ restB)
end

/-- `NodeEncoder::write_node`: `writeNodeF` with any fuel exceeding the tree
depth; theorems quantify over the fuel, evaluations pick a generous value. -/
def writeNode (fuel : Nat) (n : Node) : Except String (List Nat) :=
  writeNodeF fuel n

/-! ## `NodeDecoder` (`node_protocol.rs` lines 221-480)

All mutually recursive readers take a fuel argument, consumed on every
recursive call; `0` fuel is reported as an `Err`.  Every theorem below either
holds for all fuel values or instantiates fuel larger than the input. -/

/-- `read_byte` (lines 271-278). -/
def readByte : DecM Nat := fun st =>
  if st.index ≥ st.data.length then .err "End of stream"
  else .ok (st.data.getD st.index 0, ⟨st.data, st.index + 1⟩)

/-- `read_list_size` (lines 280-291). -/
def readListSize (tag : Nat) : DecM Nat :=
  if tag = LIST_EMPTY then pure 0
  else if tag = LIST_8 then readByte
  else if tag = LIST_16 then do
    let high ← readByte
    let low ← readByte
    pure ((high <<< 8) ||| low)
  else DecM.fail "Invalid list tag"

/-- The first two steps of `read_node` (lines 231-232): read the list-size tag
byte, then the list size. -/
def readOuterSize : DecM Nat := do
  let tag ← readByte
  readListSize tag

/-- `read_string_from_chars` (lines 353-360). -/
def readStringFromChars (length : Nat) : DecM (List Nat) := fun st =>
  if st.index + length > st.data.length then .err "End of stream"
  else
    let stringBytes := (st.data.drop st.index).take length
    if validUtf8 stringBytes then .ok (stringBytes, ⟨st.data, st.index + length⟩)
    else .err "Invalid UTF8"

/-- `read_int20` (lines 362-371). -/
def readInt20 : DecM Nat := fun st =>
  if st.index + 3 > st.data.length then .err "End of stream"
  else
    let value := ((st.data.getD st.index 0 &&& 15) <<< 16) |||
                 ((st.data.getD (st.index + 1) 0) <<< 8) |||
                 (st.data.getD (st.index + 2) 0)
    .ok (value, ⟨st.data, st.index + 3⟩)

/-- `unpack_nibble` (lines 403-423).  The decoded characters are returned as
their ASCII codes. -/
def unpackNibble (nibble : Nat) (tag : Nat) : Except String Nat :=
  if tag = NIBBLE_8 then
    if nibble ≤ 9 then .ok (48 + nibble)
    else if nibble = 10 then .ok 45
    else if nibble = 11 then .ok 46
    else if nibble = 15 then .ok 0
    else .error "Invalid nibble"
  else if tag = HEX_8 then
    if nibble ≤ 9 then .ok (48 + nibble)
    else if nibble ≤ 15 then .ok (65 + (nibble - 10))
    else .error "Invalid hex nibble"
  else .error "Invalid packed string tag"

/-- The loop body of `read_packed_string` (lines 381-398): processes `length`
packed bytes, breaking early when the buffer runs out. -/
def readPackedLoop (tag : Nat) (isOdd : Bool) : Nat → DecM (List Nat)
  | 0 => pure []
  | Nat.succ k => fun st =>
    if st.index ≥ st.data.length then .ok ([], st)  -- `break`
    else
      let byte := st.data.getD st.index 0
      let st' : Dec := ⟨st.data, st.index + 1⟩
      let highNibble := (byte >>> 4) &&& 15
      let lowNibble := byte &&& 15
      match unpackNibble highNibble tag with
      | .error e => .err e
      | .ok hc =>
        if k = 0 ∧ isOdd then
          match readPackedLoop tag isOdd k st' with
          | .ok (rest, st2) => .ok (hc :: rest, st2)
          | .err e => .err e
          | .crash e => .crash e
        else
          match unpackNibble lowNibble tag with
          | .error e => .err e
          | .ok lc =>
            match readPackedLoop tag isOdd k st' with
            | .ok (rest, st2) => .ok (hc :: lc :: rest, st2)
            | .err e => .err e
            | .crash e => .crash e

/-- `read_packed_string` (lines 373-401). -/
def readPackedString (tag : Nat) : DecM (List Nat) := do
  let lengthByte ← readByte
  let length := lengthByte &&& 127
  let isOdd := lengthByte &&& 128 ≠ 0
  readPackedLoop tag isOdd length

/-- `read_binary_content` (lines 471-479). -/
def readBinaryContent (length : Nat) : DecM (List Nat) := fun st =>
  if st.index + length > st.data.length then .err "End of stream"
  else .ok ((st.data.drop st.index).take length, ⟨st.data, st.index + length⟩)

/-- `is_list_tag` (lines 456-458). -/
def isListTag (tag : Nat) : Bool :=
  tag = LIST_EMPTY || tag = LIST_8 || tag = LIST_16

mutual

/-- `read_string` (lines 293-351). -/
def readString : Nat → Nat → DecM (List Nat)
  | 0, _ => DecM.fail "fuel"
  | Nat.succ fuel, tag =>
    if 3 ≤ tag ∧ tag < SINGLE_BYTE_MAX then
      let tokenIdx := tag - 3
      if h : tokenIdx < SINGLE_BYTE_TOKENS.length then
        let token := SINGLE_BYTE_TOKENS.get ⟨tokenIdx, h⟩
        if token = swnBytes then pure cusBytes else pure token
      else DecM.fail "Invalid token index"
    else
      if DICTIONARY_0 ≤ tag ∧ tag ≤ DICTIONARY_3 then do
        let dictIndex := tag - DICTIONARY_0
        let nextByte ← readByte
        let tokenIdx := dictIndex * 256 + nextByte
        if h : tokenIdx < SINGLE_BYTE_TOKENS.length then
          pure (SINGLE_BYTE_TOKENS.get ⟨tokenIdx, h⟩)
        else DecM.fail "Invalid dictionary token"
      else if tag = LIST_EMPTY then pure []
      else if tag = BINARY_8 then do
        let length ← readByte
        readStringFromChars length
      else if tag = BINARY_20 then do
        let length ← readInt20
        readStringFromChars length
      else if tag = BINARY_32 then do
        let b0 ← readByte
        let b1 ← readByte
        let b2 ← readByte
        let b3 ← readByte
        readStringFromChars ((b0 <<< 24) ||| (b1 <<< 16) ||| (b2 <<< 8) ||| b3)
      else if tag = JID_PAIR then do
        let leftTok ← readByte
        let left ← readString fuel leftTok
        let rightTok ← readByte
        let right ← readString fuel rightTok
        if left.isEmpty ∧ right.isEmpty then DecM.fail "Invalid JID pair"
        else pure (left ++ 64 :: right)
      else if tag = HEX_8 ∨ tag = NIBBLE_8 then readPackedString tag
      else DecM.fail "Invalid string tag"

/-- `read_node` (lines 229-269).  The attribute map is kept as the list of
`(key, value)` pairs in read order. -/
def readNode : Nat → DecM Node
  | 0 => DecM.fail "fuel"
  | Nat.succ fuel => do
    let listSize ← readOuterSize
    if listSize = 0 then DecM.fail "Invalid node"
    else do
      let tagToken ← readByte
      let tag ← readString fuel tagToken
      let numAttrs := (listSize - 1) >>> 1
      let attrs ← readAttrs fuel numAttrs
      if listSize % 2 = 0 then do
        let contentToken ← readByte
        let content ← readContent fuel contentToken
        pure (Node.mk tag attrs (some content))
      else
        pure (Node.mk tag attrs none)

/-- The attribute-pair loop inside `read_node` (lines 247-253). -/
def readAttrs : Nat → Nat → DecM (List (List Nat × List Nat))
  | 0, _ => DecM.fail "fuel"
  | Nat.succ _, 0 => pure []
  | Nat.succ fuel, Nat.succ k => do
    let keyToken ← readByte
    let key ← readString fuel keyToken
    let valueToken ← readByte
    let value ← readString fuel valueToken
    let rest ← readAttrs fuel k
    pure ((key, value) :: rest)

/-- `read_content` (lines 425-454). -/
def readContent : Nat → Nat → DecM NodeContent
  | 0, _ => DecM.fail "fuel"
  | Nat.succ fuel, tag =>
    if isListTag tag then do
      let nodes ← readListNodes fuel tag
      pure (NodeContent.list nodes)
    else if tag = BINARY_8 then do
      let length ← readByte
      let bytes ← readBinaryContent length
      pure (NodeContent.binary bytes)
    else if tag = BINARY_20 then do
      let length ← readInt20
      let bytes ← readBinaryContent length
      pure (NodeContent.binary bytes)
    else if tag = BINARY_32 then do
      let b0 ← readByte
      let b1 ← readByte
      let b2 ← readByte
      let b3 ← readByte
      let bytes ← readBinaryContent ((b0 <<< 24) ||| (b1 <<< 16) ||| (b2 <<< 8) ||| b3)
      pure (NodeContent.binary bytes)
    else do
      let s ← readString fuel tag
      pure (NodeContent.text s)

/-- `read_list_nodes` (lines 460-469). -/
def readListNodes : Nat → Nat → DecM (List Node)
  | 0, _ => DecM.fail "fuel"
  | Nat.succ fuel, tag => do
    let size ← readListSize tag
    readNodesCount fuel size

/-- The node loop of `read_list_nodes`. -/
def readNodesCount : Nat → Nat → DecM (List Node)
  | 0, _ => DecM.fail "fuel"
  | Nat.succ _, 0 => pure []
  | Nat.succ fuel, Nat.succ k => do
    let n ← readNode fuel
    let rest ← readNodesCount fuel k
    pure (n :: rest)

end

/-- `NodeDecoder::new(data)` followed by `read_node()`, with ample fuel. -/
def decodeNode (data : List Nat) : RRes (Node × Dec) :=
  readNode (2 * data.length + 2) ⟨data, 0⟩

/-! ## The second decoder (`node_protocol_new.rs` lines 225-404)

`read_byte`, `read_list_size`, `read_int20` and `read_string_from_chars` are
byte-for-byte the same as in `node_protocol.rs` and are reused.  The
differences: `read_string` uses `tag <= SINGLE_BYTE_MAX`, `.get(...)` with
`ok_or`, rejects a JID pair unless both halves are non-empty, and reports
dictionary and packed forms as unimplemented; `read_content` slices binary
content without a bounds check (`&self.data[self.index..self.index + length]`),
which panics — modelled as `crash` — on a truncated buffer. -/

namespace New

/-- `read_packed8` (lines 355-358). -/
def readPacked8 (_tag : Nat) : DecM (List Nat) :=
  DecM.fail "Packed bytes reading not implemented"

/-- `read_string` (`node_protocol_new.rs` lines 288-333). -/
def readString : Nat → Nat → DecM (List Nat)
  | 0, _ => DecM.fail "fuel"
  | Nat.succ fuel, tag =>
    if 3 ≤ tag ∧ tag ≤ SINGLE_BYTE_MAX then
      match SINGLE_BYTE_TOKENS.get? (tag - 3) with
      | some token =>
        if token = swnBytes then pure cusBytes else pure token
      | none => DecM.fail "Invalid token index"
    else
      if DICTIONARY_0 ≤ tag ∧ tag ≤ DICTIONARY_3 then do
        let _index2 ← readByte
        DecM.fail "Double token not implemented"
      else if tag = LIST_EMPTY then pure []
      else if tag = BINARY_8 then do
        let length ← readByte
        readStringFromChars length
      else if tag = BINARY_20 then do
        let length ← readInt20
        readStringFromChars length
      else if tag = BINARY_32 then do
        let b0 ← readByte
        let b1 ← readByte
        let b2 ← readByte
        let b3 ← readByte
        readStringFromChars ((b0 <<< 24) ||| (b1 <<< 16) ||| (b2 <<< 8) ||| b3)
      else if tag = JID_PAIR then do
        let leftTag ← readByte
        let left ← readString fuel leftTag
        let rightTag ← readByte
        let right ← readString fuel rightTag
        if ¬left.isEmpty ∧ ¬right.isEmpty then pure (left ++ 64 :: right)
        else DecM.fail "Invalid jid pair"
      else if tag = NIBBLE_8 ∨ tag = HEX_8 then readPacked8 tag
      else DecM.fail "Invalid string tag"

/-- The unchecked slice `&self.data[self.index..self.index + length]` used by
`read_content` (lines 368, 374, 381): panics when the end exceeds the buffer. -/
def sliceUnchecked (length : Nat) : DecM (List Nat) := fun st =>
  if st.index + length ≤ st.data.length then
    .ok ((st.data.drop st.index).take length, ⟨st.data, st.index + length⟩)
  else .crash "range end index out of range"

mutual

/-- `read_node` (`node_protocol_new.rs` lines 233-268). -/
def readNode : Nat → DecM Node
  | 0 => DecM.fail "fuel"
  | Nat.succ fuel => do
    let listSize ← readOuterSize
    if listSize = 0 then DecM.fail "Invalid node"
    else do
      let tagByte ← readByte
      let description ← readString fuel tagByte
      let numAttrs := (listSize - 1) >>> 1
      let attrs ← readAttrs fuel numAttrs
      if listSize % 2 = 0 then do
        let contentTag ← readByte
        let content ← readContent fuel contentTag
        pure (Node.mk description attrs (some content))
      else
        pure (Node.mk description attrs none)

/-- The attribute loop of `read_node` (lines 247-253). -/
def readAttrs : Nat → Nat → DecM (List (List Nat × List Nat))
  | 0, _ => DecM.fail "fuel"
  | Nat.succ _, 0 => pure []
  | Nat.succ fuel, Nat.succ k => do
    let keyTag ← readByte
    let key ← readString fuel keyTag
    let valueTag ← readByte
    let value ← readString fuel valueTag
    let rest ← readAttrs fuel k
    pure ((key, value) :: rest)

/-- `read_content` (`node_protocol_new.rs` lines 360-390): the three binary
branches read a length and then slice without any bounds check. -/
def readContent : Nat → Nat → DecM NodeContent
  | 0, _ => DecM.fail "fuel"
  | Nat.succ fuel, tag =>
    if isListTag tag then do
      let nodes ← readList fuel tag
      pure (NodeContent.list nodes)
    else if tag = BINARY_8 then do
      let length ← readByte
      let bytes ← sliceUnchecked length
      pure (NodeContent.binary bytes)
    else if tag = BINARY_20 then do
      let length ← readInt20
      let bytes ← sliceUnchecked length
      pure (NodeContent.binary bytes)
    else if tag = BINARY_32 then do
      let b0 ← readByte
      let b1 ← readByte
      let b2 ← readByte
      let b3 ← readByte
      let bytes ← sliceUnchecked ((b0 <<< 24) ||| (b1 <<< 16) ||| (b2 <<< 8) ||| b3)
      pure (NodeContent.binary bytes)
    else do
      let s ← readString fuel tag
      pure (NodeContent.text s)

/-- `read_list` (lines 396-403). -/
def readList : Nat → Nat → DecM (List Node)
  | 0, _ => DecM.fail "fuel"
  | Nat.succ fuel, tag => do
    let size ← readListSize tag
    readNodesCount fuel size

/-- The node loop of `read_list`. -/
def readNodesCount : Nat → Nat → DecM (List Node)
  | 0, _ => DecM.fail "fuel"
  | Nat.succ _, 0 => pure []
  | Nat.succ fuel, Nat.succ k => do
    let n ← readNode fuel
    let rest ← readNodesCount fuel k
    pure (n :: rest)

end

/-- `NodeDecoder::new(data)` followed by `read_node()` on the second decoder. -/
def decodeNode (data : List Nat) : RRes (Node × Dec) :=
  readNode (2 * data.length + 2) ⟨data, 0⟩

end New

/-! ## AppState (`src/appstate.rs`)

`HashMap` lookups and inserts become association-list operations with
last-insert-wins semantics. -/

/-- Insert (or overwrite) a key in an association list — `HashMap::insert`. -/
def upsert {α : Type} (k : String) (v : α) :
    List (String × α) → List (String × α)
  | [] => [(k, v)]
  | (k', v') :: rest =>
    if k' = k then (k, v) :: rest else (k', v') :: upsert k v rest

/-- Lookup — `HashMap::get`. -/
def alookup {α : Type} (k : String) : List (String × α) → Option α
  | [] => none
  | (k', v') :: rest => if k' = k then some v' else alookup k rest

/-- `AppStateEntry` (`appstate.rs` lines 42-48). -/
structure AppStateEntry where
  name : String
  version : Nat
  data : List Nat
  timestamp : Nat
deriving Repr, DecidableEq

/-- `AppStateSyncPatch` (`appstate.rs` lines 66-72). -/
structure AppStateSyncPatch where
  version : Nat
  snapshot_mac : List Nat
  patch_mac : List Nat
  patches : List AppStateEntry
deriving Repr, DecidableEq

/-- `AppStateSyncKey` (`appstate.rs` lines 50-54). -/
structure AppStateSyncKey where
  key_id : List Nat
  key_data : List Nat
deriving Repr, DecidableEq

/-- `AppStateManager` (`appstate.rs` lines 75-82). -/
structure AppStateManager where
  state : List (String × AppStateEntry)
  keys : List (List Nat × AppStateSyncKey)
  version : Nat
  current_state : List (String × Nat)
  pending_patches : List AppStateSyncPatch
deriving Repr, DecidableEq

namespace AppStateManager

/-- `AppStateManager::new` (lines 91-99). -/
def new : AppStateManager := ⟨[], [], 0, [], []⟩

/-- `add_entry` (lines 101-104). -/
def add_entry (m : AppStateManager) (entry : AppStateEntry) : AppStateManager :=
  { m with
    state := upsert entry.name entry m.state,
    current_state := upsert entry.name entry.version m.current_state }

/-- `get_current_version` (lines 114-116). -/
def get_current_version (m : AppStateManager) (name : String) : Option Nat :=
  alookup name m.current_state

/-- `update_version` (lines 110-112). -/
def update_version (m : AppStateManager) : AppStateManager :=
  { m with version := m.version + 1 }

/-- `store_patch` (lines 127-129). -/
def store_patch (m : AppStateManager) (patch : AppStateSyncPatch) :
    AppStateManager :=
  { m with pending_patches := m.pending_patches ++ [patch] }

/-- `apply_patches` (lines 132-139): drains every pending patch and calls
`add_entry` on every one of its entries, unconditionally. -/
def apply_patches (m : AppStateManager) :
    Except String Unit × AppStateManager :=
  let m' := m.pending_patches.foldl
    (fun acc patch => patch.patches.foldl add_entry acc)
    { m with pending_patches := [] }
  (.ok (), m')

/-- `verify_patch_mac` (lines 150-153): `!patch.patch_mac.is_empty()`. -/
def verify_patch_mac (_m : AppStateManager) (patch : AppStateSyncPatch) : Bool :=
  !patch.patch_mac.isEmpty

end AppStateManager

/-- `AppStateSyncResponse` (`appstate_sync.rs` lines 76-81), restricted to the
fields `handle_sync_response` reads. -/
structure AppStateSyncResponse where
  patches : List AppStateSyncPatch
  has_more : Bool
deriving Repr

/-- `AppStateSyncManager::handle_sync_response` (`appstate_sync.rs` lines
162-175), acting on the contained `AppStateManager`: for each patch, if
`verify_patch_mac` holds it calls `update_version`, otherwise it returns
`Err("Invalid patch MAC")`. -/
def handle_sync_response (m : AppStateManager) (response : AppStateSyncResponse) :
    Except String Unit × AppStateManager :=
  go m response.patches
where
  go (m : AppStateManager) : List AppStateSyncPatch →
      Except String Unit × AppStateManager
    | [] => (.ok (), m)
    | patch :: rest =>
      if m.verify_patch_mac patch then go (m.update_version) rest
      else (.error "Invalid patch MAC", m)

/-! ## Handshake engine (`src/handshake_new.rs`)

The X25519 agreement and the HKDF expansion come from the external `ring`
crate; they enter the embedding as function parameters (`agree`, `hkdf112`),
so every theorem below holds for all implementations of them.  The
certificate/static-key/payload "decryption" helpers are the source's literal
pass-throughs. -/

/-- `HandshakeState` (`handshake_new.rs` lines 40-47). -/
inductive HandshakeState where
  | Idle
  | ClientHelloSent
  | ServerHelloReceived
  | ClientFinishedSent
  | HandshakeComplete
deriving Repr, DecidableEq

/-- `ServerHello` (lines 18-23). -/
structure ServerHello where
  ephemeral : List Nat
  static_key_encrypted : List Nat
  certificate_encrypted : List Nat
deriving Repr, DecidableEq

/-- `NoiseHandler` (lines 32-38); key material is opaque byte lists. -/
structure NoiseHandler where
  ephemeral_key_pair : List Nat
  noise_key : List Nat
  static_public_key : List Nat
  static_private_key : List Nat
  handshake_state : HandshakeState
deriving Repr, DecidableEq

namespace NoiseHandler

/-- `decrypt_noise_certificate` (lines 134-138): placeholder pass-through. -/
def decrypt_noise_certificate (_h : NoiseHandler) (encryptedCert : List Nat)
    (_sharedSecret : List Nat) : Except String (List Nat) :=
  .ok encryptedCert

/-- `verify_server_certificate` (lines 140-144): placeholder `Ok(())`. -/
def verify_server_certificate (_h : NoiseHandler) (_certificate : List Nat) :
    Except String Unit :=
  .ok ()

/-- `decrypt_static_key` (lines 146-149): placeholder pass-through. -/
def decrypt_static_key (_h : NoiseHandler) (encryptedStatic : List Nat)
    (_sharedSecret : List Nat) : Except String (List Nat) :=
  .ok encryptedStatic

/-- `calculate_combined_shared_secret` (lines 151-165): concatenates the two
secrets and expands via HKDF-SHA256 (the `hkdf112` parameter). -/
def calculate_combined_shared_secret (hkdf112 : List Nat → List Nat)
    (_h : NoiseHandler) (sharedSecret serverStatic : List Nat) :
    Except String (List Nat) :=
  .ok (hkdf112 (sharedSecret ++ serverStatic))

/-- `build_client_payload` (lines 167-170): placeholder empty payload. -/
def build_client_payload (_h : NoiseHandler) : List Nat := []

/-- `encrypt_payload` (lines 172-175): placeholder pass-through. -/
def encrypt_payload (_h : NoiseHandler) (payload : List Nat)
    (_combinedShared : List Nat) : Except String (List Nat) :=
  .ok payload

/-- `start_handshake` (lines 76-86): sets `ClientHelloSent` and returns
`0x01` followed by the ephemeral public key (derived from the pair by the
`computePublic` parameter). -/
def start_handshake (computePublic : List Nat → List Nat)
    (h : NoiseHandler) : Except String (List Nat) × NoiseHandler :=
  let h' := { h with handshake_state := .ClientHelloSent }
  (.ok (1 :: computePublic h'.ephemeral_key_pair), h')

/-- `process_server_hello` (lines 88-132).  `agree` is ring's X25519
agreement (may fail), `hkdf112` the HKDF expansion.  The state is advanced to
`ServerHelloReceived` (line 93) before any cryptography runs; the slice
`&server_hello.ephemeral[..32]` (line 97) panics when fewer than 32 bytes are
present, modelled as `crash`. -/
def process_server_hello (agree : List Nat → List Nat → Except String (List Nat))
    (hkdf112 : List Nat → List Nat) (h : NoiseHandler) (serverHello : ServerHello) :
    RRes (List Nat) × NoiseHandler :=
  if h.handshake_state ≠ .ClientHelloSent then
    (.err "Invalid handshake state", h)
  else
    let h' := { h with handshake_state := .ServerHelloReceived }
    if serverHello.ephemeral.length < 32 then
      (.crash "range end index out of range", h')
    else
      let serverPublicKey := serverHello.ephemeral.take 32
      match agree h'.ephemeral_key_pair serverPublicKey with
      | .error e => (.err e, h')
      | .ok sharedSecret =>
        match h'.decrypt_noise_certificate serverHello.certificate_encrypted sharedSecret with
        | .error e => (.err e, h')
        | .ok certificate =>
          match h'.verify_server_certificate certificate with
          | .error e => (.err e, h')
          | .ok () =>
            match h'.decrypt_static_key serverHello.static_key_encrypted sharedSecret with
            | .error e => (.err e, h')
            | .ok serverStaticDecrypted =>
              match calculate_combined_shared_secret hkdf112 h' sharedSecret serverStaticDecrypted with
              | .error e => (.err e, h')
              | .ok combinedShared =>
                let clientPayload := h'.build_client_payload
                match h'.encrypt_payload clientPayload combinedShared with
                | .error e => (.err e, h')
                | .ok payloadEncrypted =>
                  (.ok (2 :: (h'.static_public_key ++ payloadEncrypted)), h')

/-- `Vec::copy_from_slice`: panics unless the lengths agree. -/
def copyFromSlice (dst src : List Nat) : RRes (List Nat) :=
  if dst.length = src.length then .ok src
  else .crash "source slice length does not match destination slice length"

/-- `finalize_handshake` (lines 177-194).  When `shared_keys` has at least 64
bytes the first 32 are copied into `noise_key`; the next 32 (`mac_key`) are
computed but stored nowhere.  Any call in the right state — even with fewer
than 64 bytes — ends in `HandshakeComplete` with `Ok(())`. -/
def finalize_handshake (h : NoiseHandler) (sharedKeys : List Nat) :
    RRes Unit × NoiseHandler :=
  if h.handshake_state ≠ .ServerHelloReceived then
    (.err "Invalid handshake state for finalization", h)
  else
    if sharedKeys.length ≥ 64 then
      let encKey := (sharedKeys.take 32)
      let _macKey := ((sharedKeys.drop 32).take 32)
      match copyFromSlice h.noise_key encKey with
      | .ok newKey =>
        (.ok (), { h with noise_key := newKey, handshake_state := .HandshakeComplete })
      | .err e => (.err e, h)
      | .crash e => (.crash e, { h with noise_key := h.noise_key })
    else
      (.ok (), { h with handshake_state := .HandshakeComplete })

end NoiseHandler

/-! ## Session key store (`src/session.rs`) -/

/-- `Session::update_encryption_keys` (`session.rs` lines 82-85) acting on the
two key fields of a session, modelled as the pair they form. -/
def update_encryption_keys (_encKeyOld _macKeyOld : List Nat)
    (encKey macKey : List Nat) : List Nat × List Nat :=
  (encKey, macKey)

/-- `generate_registration_id` (`session.rs` lines 109-113): two random bytes
interpreted as a little-endian `u16`, widened to `u32` with no mask. -/
def generate_registration_id (b0 b1 : Nat) : Nat :=
  (b0 % 256) + 256 * (b1 % 256)

/-- `crypto_multi_device.rs` lines 111-116: four random bytes as a `u32`,
masked to 14 bits with `& 0x3FFF`. -/
def generate_registration_id_md (r : Nat) : Nat :=
  (r % 4294967296) &&& 16383

/-! ## Symmetric message path (`src/crypto.rs`)

`hmac::sign` comes from `ring`; it enters as the `hmacSign` parameter
(32-byte HMAC-SHA256 output).  `encrypt_message` and `decrypt_message` are the
source's literal placeholders (ciphertext = plaintext). -/

/-- `encrypt_message` (`crypto.rs` lines 70-74): placeholder pass-through. -/
def encrypt_message (_encKey _macKey message : List Nat) :
    Except String (List Nat) :=
  .ok message

/-- `decrypt_message` (lines 77-81): placeholder pass-through. -/
def decrypt_message (_encKey _macKey encryptedMessage : List Nat) :
    Except String (List Nat) :=
  .ok encryptedMessage

/-- `sign_message` (lines 84-87). -/
def sign_message (hmacSign : List Nat → List Nat → List Nat)
    (macKey message : List Nat) : List Nat :=
  hmacSign macKey message

/-- `sign_and_encrypt_message` (lines 90-96): signature ‖ encrypted body. -/
def sign_and_encrypt_message (hmacSign : List Nat → List Nat → List Nat)
    (encKey macKey message : List Nat) : List Nat :=
  let encrypted := match encrypt_message encKey macKey message with
    | .ok e => e
    | .error _ => message
  let signature := sign_message hmacSign macKey encrypted
  signature ++ encrypted

/-- `verify_and_decrypt_message` (lines 99-117): split off the 32-byte HMAC,
recompute it over the encrypted content, reject on mismatch, and only then
decrypt. -/
def verify_and_decrypt_message (hmacSign : List Nat → List Nat → List Nat)
    (encKey macKey message : List Nat) : Except String (List Nat) :=
  if message.length < 32 then .error "Message too short"
  else
    let receivedHmac := message.take 32
    let encryptedContent := message.drop 32
    let computedHmac := sign_message hmacSign macKey encryptedContent
    if receivedHmac ≠ computedHmac then .error "HMAC verification failed"
    else decrypt_message encKey macKey encryptedContent

/-! ## Generic lemmas -/

/-- Inversion for a successful `Except` bind. -/
theorem exceptBind_ok {α β : Type} {m : Except String α} {f : α → Except String β}
    {b : β} (h : (m >>= f) = .ok b) : ∃ a, m = .ok a ∧ f a = .ok b := by
  cases m with
  | ok a => exact ⟨a, rfl, h⟩
  | error e => cases h

/-- Recombining the two big-endian bytes of a value below 2^16. -/
theorem shiftOr_eq (h l : Nat) (hl : l < 256) : (h <<< 8) ||| l = 256 * h + l := by
  have h1 : h <<< 8 = 2 ^ 8 * h := by
    rw [Nat.shiftLeft_eq]; ring
  have hl' : l < 2 ^ 8 := by simpa using hl
  rw [h1, ← Nat.mul_add_lt_is_or hl' h]

/-! ## C1 -/

set_option maxRecDepth 100000 in
/-- C1: the codec does **not** round trip.  `node_protocol.rs`'s encoder
writes the raw token-table index of a token string (`write_string`, line 123),
while the decoder maps a byte `t` to table index `t - 3` (`read_string`,
line 295); the table starts with three padding entries, so the two are off by
three.  Concretely `Node { tag: "200" }` encodes to `[248, 1, 3]`, which
decodes to a node with an **empty** tag; and a plain ASCII tag `"hi"` encodes
to a `BINARY_8` raw string whose leading byte 252 is swallowed by the
decoder's token guard (`3 <= tag < SINGLE_BYTE_MAX`), producing
`Err("Invalid token index")` instead of a node.  So `decode(encode(n)) = n`
fails both for token-table strings and for arbitrary ASCII, contradicting the
claim; the documented `s.whatsapp.net → c.us` rewrite never fires on decode
of encoder output for the same reason. -/
theorem c1_roundtrip_fails_on_code :
    writeNode 10 (Node.mk (asciiBytes "200") [] none) = .ok [248, 1, 3] ∧
    decodeNode [248, 1, 3] = .ok (Node.mk [] [] none, ⟨[248, 1, 3], 3⟩) ∧
    Node.mk [] [] none ≠ Node.mk (asciiBytes "200") [] none ∧
    writeNode 10 (Node.mk (asciiBytes "hi") [] none) =
      .ok [248, 1, 252, 2, 104, 105] ∧
    decodeNode [248, 1, 252, 2, 104, 105] = .err "Invalid token index" := by
  refine ⟨rfl, rfl, ?_, rfl, rfl⟩
  intro h
  injection h with h1 h2 h3
  exact absurd h1 (by decide)

/-! ## C3 -/

/-- The manager after `add_entry({"settings", version 1})` and an applied
version-2 patch, as in the spec's concrete scenario 5. -/
def c3ManagerAtV2 : AppStateManager :=
  (((AppStateManager.new.add_entry ⟨"settings", 1, [1], 10⟩).store_patch
    ⟨2, [0], [7], [⟨"settings", 2, [2], 20⟩]⟩).apply_patches).2

/-- A stale version-1 patch for the same collection name. -/
def c3StalePatch : AppStateSyncPatch := ⟨1, [0], [7], [⟨"settings", 1, [9], 30⟩]⟩

/-- C3: version monotonicity does **not** hold.  `apply_patches`
(`appstate.rs` lines 132-139) drains every buffered patch and calls
`add_entry` on each of its entries with no version comparison at all; after
the stored version for `"settings"` is 2, re-applying a version-1 patch
succeeds and overwrites the stored version back to 1, where the claim
requires rejection with the version remaining 2. -/
theorem c3_apply_patches_accepts_stale_version :
    c3ManagerAtV2.get_current_version "settings" = some 2 ∧
    ((c3ManagerAtV2.store_patch c3StalePatch).apply_patches).1 = .ok () ∧
    ((c3ManagerAtV2.store_patch c3StalePatch).apply_patches).2.get_current_version
      "settings" = some 1 := by
  exact ⟨rfl, rfl, rfl⟩

/-! ## C4 -/

/-- A patch whose one-byte MAC is `[7]`. -/
def c4Patch : AppStateSyncPatch := ⟨5, [], [7], [⟨"x", 5, [1], 0⟩]⟩

/-- The same patch with the single MAC byte flipped (`7 → 6`, bit 0). -/
def c4PatchFlipped : AppStateSyncPatch := ⟨5, [], [6], [⟨"x", 5, [1], 0⟩]⟩

/-- The same patch with an empty MAC — the only shape `verify_patch_mac`
rejects. -/
def c4PatchEmptyMac : AppStateSyncPatch := ⟨5, [], [], [⟨"x", 5, [1], 0⟩]⟩

/-- C4: MAC integrity does **not** hold.  `verify_patch_mac` (`appstate.rs`
lines 150-153) is the placeholder `!patch.patch_mac.is_empty()`: flipping a
byte of a non-empty MAC leaves verification succeeding, where the claim
requires it to fail.  Moreover `apply_patches` never consults
`verify_patch_mac`, so even a patch whose MAC check fails (empty MAC) has its
entries merged into the state. -/
theorem c4_mac_flip_not_detected :
    AppStateManager.new.verify_patch_mac c4Patch = true ∧
    AppStateManager.new.verify_patch_mac c4PatchFlipped = true ∧
    AppStateManager.new.verify_patch_mac c4PatchEmptyMac = false ∧
    ((AppStateManager.new.store_patch c4PatchEmptyMac).apply_patches).2.get_current_version
      "x" = some 5 := by
  exact ⟨rfl, rfl, rfl, rfl⟩

/-! ## C5 -/

/-- C5: handshake step ordering holds.  `process_server_hello`
(`handshake_new.rs` lines 88-93) returns `Err("Invalid handshake state")` and
leaves the handler untouched whenever the state is not `ClientHelloSent`;
`finalize_handshake` (lines 177-181) likewise errors without mutation
whenever the state is not `ServerHelloReceived`.  Quantified over every
implementation of the external X25519 agreement and HKDF expansion. -/
theorem c5_handshake_step_ordering :
    (∀ (agree : List Nat → List Nat → Except String (List Nat))
       (hkdf112 : List Nat → List Nat) (h : NoiseHandler) (sh : ServerHello),
       h.handshake_state ≠ .ClientHelloSent →
       (NoiseHandler.process_server_hello agree hkdf112 h sh).1 =
         .err "Invalid handshake state" ∧
       (NoiseHandler.process_server_hello agree hkdf112 h sh).2 = h) ∧
    (∀ (h : NoiseHandler) (sharedKeys : List Nat),
       h.handshake_state ≠ .ServerHelloReceived →
       (h.finalize_handshake sharedKeys).1 =
         .err "Invalid handshake state for finalization" ∧
       (h.finalize_handshake sharedKeys).2 = h) := by
  constructor
  · intro agree hkdf112 h sh hne
    unfold NoiseHandler.process_server_hello
    rw [if_pos hne]
    exact ⟨rfl, rfl⟩
  · intro h sharedKeys hne
    unfold NoiseHandler.finalize_handshake
    rw [if_pos hne]
    exact ⟨rfl, rfl⟩

/-- A handler that has not yet started the handshake. -/
def c5IdleHandler : NoiseHandler := ⟨[1], List.replicate 32 0, [2], [], .Idle⟩

/-- C5 witness: both out-of-order calls fail on an `Idle` handler. -/
theorem c5_handshake_step_ordering_witness :
    ((NoiseHandler.process_server_hello (fun _ _ => .ok []) (fun _ => [])
        c5IdleHandler ⟨List.replicate 32 9, [], []⟩).1 =
      .err "Invalid handshake state" ∧
     (NoiseHandler.process_server_hello (fun _ _ => .ok []) (fun _ => [])
        c5IdleHandler ⟨List.replicate 32 9, [], []⟩).2 = c5IdleHandler) ∧
    ((c5IdleHandler.finalize_handshake []).1 =
      .err "Invalid handshake state for finalization" ∧
     (c5IdleHandler.finalize_handshake []).2 = c5IdleHandler) :=
  ⟨c5_handshake_step_ordering.1 (fun _ _ => .ok []) (fun _ => [])
      c5IdleHandler ⟨List.replicate 32 9, [], []⟩ (by decide),
   c5_handshake_step_ordering.2 c5IdleHandler [] (by decide)⟩

/-! ## C6 -/

/-- A handler ready for finalization (state `ServerHelloReceived`). -/
def c6Handler : NoiseHandler :=
  ⟨[1], List.replicate 32 0, [2], [], .ServerHelloReceived⟩

/-- C6: the finalize contract does **not** hold.  `finalize_handshake`
(`handshake_new.rs` lines 177-194) called in `ServerHelloReceived` with an
**empty** `shared_keys` (fewer than the claimed required 64 bytes) silently
returns `Ok(())` and still transitions to `HandshakeComplete`, storing
nothing; and with 64 bytes it copies only the first 32 into `noise_key` —
the computed `mac_key` (bytes 32..64) is dropped on the floor, and
`Session::update_encryption_keys` is never invoked, so the session key store
receives neither key. -/
theorem c6_finalize_accepts_short_keys :
    c6Handler.finalize_handshake [] =
      (.ok (), ⟨[1], List.replicate 32 0, [2], [], .HandshakeComplete⟩) ∧
    c6Handler.finalize_handshake (List.range 64) =
      (.ok (), ⟨[1], List.range 32, [2], [], .HandshakeComplete⟩) := by
  exact ⟨rfl, rfl⟩

/-! ## C7 -/

/-- C7: MAC-before-decrypt holds.  `verify_and_decrypt_message` (`crypto.rs`
lines 99-117) recomputes the HMAC over the encrypted content and compares it
against the leading 32 bytes; on any mismatch (or a short message) it returns
an error and no decryption output, and a successful result is exactly the
decryption of the content, which is only reached when the received and
computed MACs agree.  Quantified over every implementation of ring's
`hmac::sign`. -/
theorem c7_mac_verified_before_decrypt :
    (∀ (hmacSign : List Nat → List Nat → List Nat) (encKey macKey message : List Nat),
       message.take 32 ≠ sign_message hmacSign macKey (message.drop 32) →
       ∃ e, verify_and_decrypt_message hmacSign encKey macKey message = .error e) ∧
    (∀ (hmacSign : List Nat → List Nat → List Nat) (encKey macKey message plain : List Nat),
       verify_and_decrypt_message hmacSign encKey macKey message = .ok plain →
       32 ≤ message.length ∧
       message.take 32 = sign_message hmacSign macKey (message.drop 32) ∧
       decrypt_message encKey macKey (message.drop 32) = .ok plain) := by
  have hbody : ∀ (hmacSign : List Nat → List Nat → List Nat)
      (encKey macKey message : List Nat),
      verify_and_decrypt_message hmacSign encKey macKey message =
        if message.length < 32 then .error "Message too short"
        else if message.take 32 ≠ sign_message hmacSign macKey (message.drop 32)
          then .error "HMAC verification failed"
          else decrypt_message encKey macKey (message.drop 32) :=
    fun _ _ _ _ => rfl
  constructor
  · intro hmacSign encKey macKey message hmis
    rw [hbody]
    split_ifs with h1
    · exact ⟨"Message too short", rfl⟩
    · exact ⟨"HMAC verification failed", rfl⟩
  · intro hmacSign encKey macKey message plain h
    rw [hbody] at h
    split_ifs at h with h1 h2
    · push_neg at h2
      exact ⟨Nat.le_of_not_lt h1, h2, h⟩

/-- C7 witness: a message whose 32-byte MAC header matches the recomputed MAC
decrypts to its content, and one with a wrong MAC is rejected. -/
theorem c7_mac_verified_before_decrypt_witness :
    (∃ e, verify_and_decrypt_message (fun _ _ => List.replicate 32 0) [] []
      (List.replicate 32 1 ++ [5]) = .error e) ∧
    (32 ≤ (List.replicate 32 0 ++ [5] : List Nat).length ∧
     (List.replicate 32 0 ++ [5] : List Nat).take 32 =
       sign_message (fun _ _ => List.replicate 32 0) []
         ((List.replicate 32 0 ++ [5] : List Nat).drop 32) ∧
     decrypt_message [] [] ((List.replicate 32 0 ++ [5] : List Nat).drop 32) =
       .ok [5]) :=
  ⟨c7_mac_verified_before_decrypt.1 (fun _ _ => List.replicate 32 0) [] []
      (List.replicate 32 1 ++ [5]) (by decide),
   c7_mac_verified_before_decrypt.2 (fun _ _ => List.replicate 32 0) [] []
      (List.replicate 32 0 ++ [5]) [5] rfl⟩

/-! ## C2 -/

/-- Reading a `LIST_8` outer framing. -/
theorem readOuterSize_list8 (c : Nat) (rest : List Nat) :
    readOuterSize ⟨248 :: c :: rest, 0⟩ = .ok (c, ⟨248 :: c :: rest, 2⟩) := rfl

/-- Reading a `LIST_16` outer framing. -/
theorem readOuterSize_list16 (h l : Nat) (rest : List Nat) :
    readOuterSize ⟨249 :: h :: l :: rest, 0⟩ =
      .ok ((h <<< 8) ||| l, ⟨249 :: h :: l :: rest, 3⟩) := rfl

/-- `Bind.bind` on `DecM` is `DecM.bind` (for rewriting elaborated `do`). -/
theorem DecM.bind_def2 {α β : Type} (m : DecM α) (f : α → DecM β) :
    @Bind.bind DecM _ α β m f = DecM.bind m f := rfl

set_option maxRecDepth 100000 in
/-- C2: content-presence parity holds.  First half: for every node whose
wire-level child count `1 + 2·|attrs| + (1 if content else 0)` fits the
`u16` list header (≤ 65535, the format's documented maximum), the outer list
header written by `write_node` (`node_protocol.rs` lines 79-104) reads back
as exactly that count.  Second half: whenever `read_node` (lines 229-269)
succeeds, the decoded node has `content = Some …` exactly when the outer
list size it read is even (`has_content = list_size % 2 == 0`, line 256) —
presence is determined solely by the parity of the count. -/
theorem c2_content_presence_parity :
    (∀ (fuel : Nat) (n : Node) (bytes : List Nat),
       1 + 2 * n.attrs.length + (if n.content.isSome then 1 else 0) ≤ 65535 →
       writeNode fuel n = .ok bytes →
       ∃ st, readOuterSize ⟨bytes, 0⟩ =
         .ok (1 + 2 * n.attrs.length + (if n.content.isSome then 1 else 0), st)) ∧
    (∀ (fuel : Nat) (st : Dec) (n : Node) (st' : Dec),
       readNode fuel st = .ok (n, st') →
       ∃ s st2, readOuterSize st = .ok (s, st2) ∧
         (n.content.isSome = true ↔ s % 2 = 0)) := by
  constructor
  · intro fuel n bytes hle henc
    cases fuel with
    | zero => simp [writeNode, writeNodeF] at henc
    | succ f =>
      obtain ⟨tag, attrs, content⟩ := n
      unfold writeNode at henc
      rw [writeNodeF] at henc
      simp only [Node.attrs, Node.content] at hle ⊢
      obtain ⟨header, hh, henc2⟩ := exceptBind_ok henc
      obtain ⟨tagB, _, henc3⟩ := exceptBind_ok henc2
      obtain ⟨attrB, _, henc4⟩ := exceptBind_ok henc3
      obtain ⟨contentB, _, henc5⟩ := exceptBind_ok henc4
      have hbytes : bytes = header ++ (tagB ++ (attrB ++ contentB)) := by
        simpa [pure, Except.pure] using henc5.symm
      subst hbytes
      set total := 1 + 2 * attrs.length + (if content.isSome then 1 else 0) with htotal
      have htpos : total ≠ 0 := by omega
      unfold writeListStart at hh
      rw [if_neg htpos] at hh
      by_cases hsmall : total < 256
      · rw [if_pos hsmall] at hh
        have hheader : header = [LIST_8, total % 256] := by
          simpa using hh.symm
        subst hheader
        rw [Nat.mod_eq_of_lt hsmall]
        exact ⟨_, readOuterSize_list8 total (tagB ++ (attrB ++ contentB))⟩
      · rw [if_neg hsmall] at hh
        have hheader : header = LIST_16 :: u16BeBytes total := by
          simpa using hh.symm
        subst hheader
        have h65 : total % 65536 = total := Nat.mod_eq_of_lt (by omega)
        have h2 := readOuterSize_list16 (total % 65536 / 256) (total % 256)
          (tagB ++ (attrB ++ contentB))
        have hval : ((total % 65536 / 256) <<< 8) ||| (total % 256) = total := by
          rw [h65, shiftOr_eq _ _ (Nat.mod_lt _ (by norm_num))]
          omega
        rw [hval] at h2
        exact ⟨_, h2⟩
  · intro fuel st n st' h
    cases fuel with
    | zero => simp [readNode, DecM.fail] at h
    | succ f =>
      rw [readNode] at h
      simp only [DecM.bind_def, DecM.bind_def2] at h
      obtain ⟨s, st2, h1, h2⟩ := DecM.bind_ok h
      by_cases hs : s = 0
      · rw [hs] at h2
        cases h2
      · rw [if_neg hs] at h2
        obtain ⟨tagTok, st3, h3, h4⟩ := DecM.bind_ok h2
        obtain ⟨tag, st4, h5, h6⟩ := DecM.bind_ok h4
        obtain ⟨attrs, st5, h7, h8⟩ := DecM.bind_ok h6
        by_cases hpar : s % 2 = 0
        · rw [if_pos hpar] at h8
          obtain ⟨ct, st6, h9, h10⟩ := DecM.bind_ok h8
          obtain ⟨c, st7, h11, h12⟩ := DecM.bind_ok h10
          simp only [pure, DecM.pure, RRes.ok.injEq, Prod.mk.injEq] at h12
          obtain ⟨hn, _⟩ := h12
          exact ⟨s, st2, h1, by rw [← hn]; simp [Node.content, hpar]⟩
        · rw [if_neg hpar] at h8
          simp only [pure, DecM.pure, RRes.ok.injEq, Prod.mk.injEq] at h8
          obtain ⟨hn, _⟩ := h8
          exact ⟨s, st2, h1, by rw [← hn]; simp [Node.content, hpar]⟩

set_option maxRecDepth 100000 in
/-- C2 witness: the encoded form of `Node { tag: "200" }` carries outer child
count 1, and its decode has no content (odd count). -/
theorem c2_content_presence_parity_witness :
    (∃ st, readOuterSize ⟨[248, 1, 3], 0⟩ =
       .ok (1 + 2 * (Node.mk (asciiBytes "200") [] none).attrs.length +
         (if (Node.mk (asciiBytes "200") [] none).content.isSome then 1 else 0), st)) ∧
    (∃ s st2, readOuterSize ⟨[248, 1, 3], 0⟩ = .ok (s, st2) ∧
       ((Node.mk [] [] none).content.isSome = true ↔ s % 2 = 0)) :=
  ⟨c2_content_presence_parity.1 10 (Node.mk (asciiBytes "200") [] none)
      [248, 1, 3] (by decide) rfl,
   c2_content_presence_parity.2 8 ⟨[248, 1, 3], 0⟩ (Node.mk [] [] none)
      ⟨[248, 1, 3], 3⟩ rfl⟩

/-! ## C8

The `node_protocol.rs` decoder bounds-checks every read, so it can never hit
the `crash` outcome; the `node_protocol_new.rs` `read_content` can.  `NoCrash`
and its closure lemmas drive a mutual induction over the fuel. -/

/-- A decoder computation that can never panic. -/
def NoCrash {α : Type} (m : DecM α) : Prop :=
  ∀ (st : Dec) (e : String), m st ≠ RRes.crash e

theorem NoCrash.ofPure {α : Type} (a : α) : NoCrash (DecM.pure a) := by
  intro st e hx
  cases hx

theorem NoCrash.ofFail {α : Type} (e : String) : NoCrash (DecM.fail e : DecM α) := by
  intro st e' hx
  cases hx

theorem NoCrash.ofBind {α β : Type} {m : DecM α} {f : α → DecM β}
    (hm : NoCrash m) (hf : ∀ a, NoCrash (f a)) : NoCrash (DecM.bind m f) := by
  intro st e hx
  unfold DecM.bind at hx
  cases hmst : m st with
  | ok p => rw [hmst] at hx; exact hf p.1 p.2 e hx
  | err e2 => rw [hmst] at hx; cases hx
  | crash e2 => exact hm st e2 hmst

theorem NoCrash.ofIte {α : Type} {c : Prop} [Decidable c] {m1 m2 : DecM α}
    (h1 : NoCrash m1) (h2 : NoCrash m2) : NoCrash (if c then m1 else m2) := by
  intro st e
  by_cases hc : c
  · rw [if_pos hc]; exact h1 st e
  · rw [if_neg hc]; exact h2 st e

theorem NoCrash.ofDite {α : Type} {c : Prop} [Decidable c]
    {m1 : c → DecM α} {m2 : ¬c → DecM α}
    (h1 : ∀ h, NoCrash (m1 h)) (h2 : ∀ h, NoCrash (m2 h)) :
    NoCrash (dite c m1 m2) := by
  intro st e
  by_cases hc : c
  · rw [dif_pos hc]; exact h1 hc st e
  · rw [dif_neg hc]; exact h2 hc st e

theorem NoCrash.readByte : NoCrash readByte := by
  intro st e
  unfold Rustdi.readByte
  split_ifs <;> (intro hx; cases hx)

theorem NoCrash.readListSize (tag : Nat) : NoCrash (readListSize tag) := by
  unfold Rustdi.readListSize
  simp only [DecM.bind_def, DecM.bind_def2, DecM.pure_def]
  exact .ofIte (.ofPure _) (.ofIte .readByte (.ofIte
    (.ofBind .readByte fun _ => .ofBind .readByte fun _ => .ofPure _)
    (.ofFail _)))

theorem NoCrash.readOuterSize : NoCrash readOuterSize := by
  unfold Rustdi.readOuterSize
  simp only [DecM.bind_def, DecM.bind_def2]
  exact .ofBind .readByte fun t => .readListSize t

theorem NoCrash.readStringFromChars (length : Nat) :
    NoCrash (readStringFromChars length) := by
  intro st e hx
  by_cases h1 : st.index + length > st.data.length
  · simp only [Rustdi.readStringFromChars, if_pos h1] at hx
    cases hx
  · by_cases h2 : validUtf8 ((st.data.drop st.index).take length) = true
    · simp only [Rustdi.readStringFromChars, if_neg h1, if_pos h2] at hx
      cases hx
    · simp only [Rustdi.readStringFromChars, if_neg h1, if_neg h2] at hx
      cases hx

theorem NoCrash.readInt20 : NoCrash readInt20 := by
  intro st e
  unfold Rustdi.readInt20
  split_ifs <;> (intro hx; cases hx)

theorem NoCrash.readBinaryContent (length : Nat) :
    NoCrash (readBinaryContent length) := by
  intro st e
  unfold Rustdi.readBinaryContent
  split_ifs <;> (intro hx; cases hx)

theorem NoCrash.readPackedLoop (tag : Nat) (isOdd : Bool) :
    ∀ n, NoCrash (readPackedLoop tag isOdd n) := by
  intro n
  induction n with
  | zero => exact .ofPure _
  | succ k ih =>
    intro st e hx
    simp only [Rustdi.readPackedLoop] at hx
    split at hx
    · cases hx
    · split at hx
      · cases hx
      · split at hx
        · split at hx
          · cases hx
          · cases hx
          · rename_i heq
            exact ih _ _ heq
        · split at hx
          · cases hx
          · split at hx
            · cases hx
            · cases hx
            · rename_i heq
              exact ih _ _ heq

theorem NoCrash.readPackedString (tag : Nat) : NoCrash (readPackedString tag) := by
  unfold Rustdi.readPackedString
  simp only [DecM.bind_def, DecM.bind_def2]
  exact .ofBind .readByte fun lengthByte => .readPackedLoop _ _ _

/-- Mutual induction over the fuel: no reader of the `node_protocol.rs`
decoder can panic — every slice access is bounds-checked first. -/
theorem oldDecoder_noCrash : ∀ fuel : Nat,
    (∀ tag, NoCrash (readString fuel tag)) ∧
    NoCrash (readNode fuel) ∧
    (∀ k, NoCrash (readAttrs fuel k)) ∧
    (∀ tag, NoCrash (readContent fuel tag)) ∧
    (∀ tag, NoCrash (readListNodes fuel tag)) ∧
    (∀ k, NoCrash (readNodesCount fuel k)) := by
  intro fuel
  induction fuel with
  | zero =>
    exact ⟨fun _ => .ofFail _, .ofFail _, fun _ => .ofFail _,
      fun _ => .ofFail _, fun _ => .ofFail _, fun _ => .ofFail _⟩
  | succ f ih =>
    obtain ⟨ihS, ihN, ihA, ihC, ihL, ihK⟩ := ih
    have hAttrs : ∀ k, NoCrash (readAttrs (Nat.succ f) k) := by
      intro k
      cases k with
      | zero => exact .ofPure _
      | succ k0 =>
        simp only [Rustdi.readAttrs, DecM.bind_def, DecM.bind_def2,
          DecM.pure_def]
        exact .ofBind .readByte fun _ => .ofBind (ihS _) fun _ =>
          .ofBind .readByte fun _ => .ofBind (ihS _) fun _ =>
          .ofBind (ihA _) fun _ => .ofPure _
    have hString : ∀ tag, NoCrash (readString (Nat.succ f) tag) := by
      intro tag
      simp only [Rustdi.readString, DecM.bind_def, DecM.bind_def2,
        DecM.pure_def]
      refine .ofIte (.ofDite (fun _ => .ofIte (.ofPure _) (.ofPure _))
        (fun _ => .ofFail _)) ?_
      refine .ofIte (.ofBind .readByte fun _ =>
        .ofDite (fun _ => .ofPure _) (fun _ => .ofFail _)) ?_
      refine .ofIte (.ofPure _) ?_
      refine .ofIte (.ofBind .readByte fun l => .readStringFromChars l) ?_
      refine .ofIte (.ofBind .readInt20 fun l => .readStringFromChars l) ?_
      refine .ofIte (.ofBind .readByte fun _ => .ofBind .readByte fun _ =>
        .ofBind .readByte fun _ => .ofBind .readByte fun _ =>
        .readStringFromChars _) ?_
      refine .ofIte (.ofBind .readByte fun _ => .ofBind (ihS _) fun _ =>
        .ofBind .readByte fun _ => .ofBind (ihS _) fun _ =>
        .ofIte (.ofFail _) (.ofPure _)) ?_
      exact .ofIte (.readPackedString _) (.ofFail _)
    have hContent : ∀ tag, NoCrash (readContent (Nat.succ f) tag) := by
      intro tag
      simp only [Rustdi.readContent, DecM.bind_def, DecM.bind_def2,
        DecM.pure_def]
      refine .ofIte (.ofBind (ihL _) fun _ => .ofPure _) ?_
      refine .ofIte (.ofBind .readByte fun l =>
        .ofBind (.readBinaryContent l) fun _ => .ofPure _) ?_
      refine .ofIte (.ofBind .readInt20 fun l =>
        .ofBind (.readBinaryContent l) fun _ => .ofPure _) ?_
      refine .ofIte (.ofBind .readByte fun _ => .ofBind .readByte fun _ =>
        .ofBind .readByte fun _ => .ofBind .readByte fun _ =>
        .ofBind (.readBinaryContent _) fun _ => .ofPure _) ?_
      exact .ofBind (ihS _) fun _ => .ofPure _
    have hNode : NoCrash (readNode (Nat.succ f)) := by
      simp only [Rustdi.readNode, DecM.bind_def, DecM.bind_def2, DecM.pure_def]
      refine .ofBind .readOuterSize fun s => .ofIte (.ofFail _) ?_
      refine .ofBind .readByte fun _ => .ofBind (ihS _) fun _ =>
        .ofBind (ihA _) fun _ => .ofIte ?_ (.ofPure _)
      exact .ofBind .readByte fun _ => .ofBind (ihC _) fun _ => .ofPure _
    have hList : ∀ tag, NoCrash (readListNodes (Nat.succ f) tag) := by
      intro tag
      simp only [Rustdi.readListNodes, DecM.bind_def, DecM.bind_def2]
      exact .ofBind (.readListSize _) fun size => ihK size
    have hCount : ∀ k, NoCrash (readNodesCount (Nat.succ f) k) := by
      intro k
      cases k with
      | zero => exact .ofPure _
      | succ k0 =>
        simp only [Rustdi.readNodesCount, DecM.bind_def, DecM.bind_def2,
          DecM.pure_def]
        exact .ofBind ihN fun _ => .ofBind (ihK _) fun _ => .ofPure _
    exact ⟨hString, hNode, hAttrs, hContent, hList, hCount⟩

set_option maxRecDepth 100000 in
/-- C8 counterexample: decoding the truncated buffer `[248, 2, 0, 252, 5]`
with the `node_protocol_new.rs` decoder (cited by the claim) reaches
`read_content`'s `BINARY_8` branch, whose unchecked slice
`&self.data[self.index..self.index + 5]` runs past the 5-byte buffer: the
decode panics instead of returning a `Node` or a `FormatError`, so the claim
as stated ("for every input byte sequence, decoding either returns a Node or
returns a distinct FormatError") is false. -/
theorem c8_new_decoder_reads_out_of_bounds :
    New.decodeNode [248, 2, 0, 252, 5] = .crash "range end index out of range" :=
  rfl

/-- C8 (amended): totality holds for the `node_protocol.rs` decoder — on
every input it returns a `Node` or an `Err`, never the panic outcome; every
slice access there is bounds-checked first (`read_byte`,
`read_string_from_chars`, `read_int20`, `read_binary_content`,
`read_packed_string`).  The `node_protocol_new.rs` `read_content`, by
contrast, slices binary content without a bounds check (see the
counterexample theorem). -/
theorem c8_old_decoder_total :
    ∀ (fuel : Nat) (st : Dec),
      (∃ n st', readNode fuel st = .ok (n, st')) ∨
      (∃ e, readNode fuel st = .err e) := by
  intro fuel st
  cases hr : readNode fuel st with
  | ok p =>
    obtain ⟨n1, st1⟩ := p
    exact Or.inl ⟨n1, st1, rfl⟩
  | err e => exact Or.inr ⟨e, rfl⟩
  | crash e => exact absurd hr ((oldDecoder_noCrash fuel).2.1 st e)

/-! ## C9 -/

/-- C9: the 14-bit registration-id claim does **not** hold for
`session.rs`.  Its `generate_registration_id` (lines 109-113) builds a full
16-bit value (`u16::from_le_bytes` of two random bytes, widened with no
mask), so random bytes `[0x00, 0x40]` yield 16384 = 2^14, outside the 14-bit
space.  (The separate `crypto_multi_device.rs` generator does mask with
`& 0x3FFF`; `Session::new` uses the unmasked `session.rs` one.) -/
theorem c9_registration_id_is_16_bit :
    generate_registration_id 0 64 = 16384 ∧
    ¬(generate_registration_id 0 64 < 2 ^ 14) ∧
    (∀ r : Nat, generate_registration_id_md r < 2 ^ 14) := by
  refine ⟨rfl, by decide, ?_⟩
  intro r
  have : (r % 4294967296) &&& 16383 ≤ 16383 := Nat.and_le_right
  simpa [generate_registration_id_md] using Nat.lt_succ_of_le this

/-! ## C10 -/

/-- C10: a zero-size outer list is rejected by both decoders.  `read_node`
(`node_protocol.rs` lines 229-236 and `node_protocol_new.rs` lines 233-239)
reads the outer list size first and returns `Err("Invalid node")` when it is
zero, so no decoded `Node` ever comes from a zero-child outer list. -/
theorem c10_zero_size_list_rejected :
    (∀ (fuel : Nat) (st st2 : Dec), readOuterSize st = .ok (0, st2) →
       ∃ e, readNode fuel st = .err e) ∧
    (∀ (fuel : Nat) (st st2 : Dec), readOuterSize st = .ok (0, st2) →
       ∃ e, New.readNode fuel st = .err e) := by
  constructor
  · intro fuel st st2 h
    cases fuel with
    | zero => exact ⟨"fuel", rfl⟩
    | succ f =>
      refine ⟨"Invalid node", ?_⟩
      show DecM.bind readOuterSize _ st = _
      unfold DecM.bind
      rw [h]
      rfl
  · intro fuel st st2 h
    cases fuel with
    | zero => exact ⟨"fuel", rfl⟩
    | succ f =>
      refine ⟨"Invalid node", ?_⟩
      show DecM.bind readOuterSize _ st = _
      unfold DecM.bind
      rw [h]
      rfl

/-- C10 witness: the one-byte buffer `[0]` (the empty-list marker as
top-level framing) is rejected by both decoders. -/
theorem c10_zero_size_list_rejected_witness :
    (∃ e, readNode 3 ⟨[0], 0⟩ = .err e) ∧
    (∃ e, New.readNode 3 ⟨[0], 0⟩ = .err e) :=
  ⟨c10_zero_size_list_rejected.1 3 ⟨[0], 0⟩ ⟨[0], 1⟩ rfl,
   c10_zero_size_list_rejected.2 3 ⟨[0], 0⟩ ⟨[0], 1⟩ rfl⟩

end Rustdi
